import Mathlib

/-!
Shallow embedding of the message broker and delivery/history subsystem of
the agent-comm-hub repository (Go), covering:

* internal/services/messaging/message_broker.go — SendMessage,
  GetMessageHistory, storeMessageHistory, the channel constants;
* internal/handlers/message.go — the HTTP Send handler path;
* internal/models/message.go — the Message data model.

Redis is modelled as explicit state: per-key lists of stored entries
(newest first, as produced by LPUSH) plus a log of published
(channel, message) events.  Each Redis call that can fail in the Go code
(Publish, LPush, LTrim, Expire, LRange) takes an exogenous success flag;
on failure the call performs no mutation and the Go function returns the
corresponding wrapped error.  Marshalling a Message is total here (the
struct is plain data); unmarshalling a stored entry is modelled by
parseEntry, with HistoryEntry.bad standing for stored bytes that fail to
deserialize.  Timestamps are Nat; the UUID produced by uuid.New().String()
is an explicit msgID argument.
-/

namespace AgentCommHub

/-- Go type `MessageType string` from internal/models/message.go. -/
abbrev MessageType := String

/-- Go constant `MessageTypeMessage MessageType = "message"` — the generic
message kind. -/
def MessageTypeMessage : MessageType := "message"

/-- The broker treats the payload as opaque (Go `interface{}`); we model it
as an opaque string of serialized bytes. -/
abbrev Payload := String

/-- Go struct `models.Message` — the transport envelope
(internal/models/message.go). -/
structure Message where
  id : String
  fromAgent : String
  toAgent : String
  type : MessageType
  payload : Payload
  correlationID : String
  timestamp : Nat
  ttl : Int
deriving DecidableEq, Repr

/-- Go struct `models.SendMessageRequest` (internal/models/message.go). -/
structure SendMessageRequest where
  toAgent : String
  type : MessageType
  payload : Payload
  correlationID : String
  ttl : Int
deriving DecidableEq, Repr

/-- Go struct `models.SendMessageResponse` (internal/models/message.go). -/
structure SendMessageResponse where
  messageID : String
  timestamp : Nat
  channel : String
deriving DecidableEq, Repr

/-- Go constant `directMessageChannelPrefix = "agent:message:"`. -/
def directMessageChannelPrefixStr : String := "agent:message:"

/-- Go constant `broadcastChannel = "agent:broadcast"`. -/
def broadcastChannel : String := "agent:broadcast"

/-- Go constant `messageHistoryPrefix = "agent:history:"`. -/
def messageHistoryPrefixStr : String := "agent:history:"

/-- Go constant `messageHistoryMax = 100` — max messages per agent. -/
def messageHistoryMax : Nat := 100

/-- A stored history entry: `good m` is a valid serialization of `m`
(round-trips through unmarshalling), `bad raw` is stored bytes that fail to
deserialize into a `models.Message`. -/
inductive HistoryEntry where
  | good : Message → HistoryEntry
  | bad : String → HistoryEntry
deriving DecidableEq, Repr

/-- Unmarshalling of one stored entry into a `models.Message`
(message_broker.go line 112): succeeds exactly on well-formed entries. -/
def parseEntry : HistoryEntry → Option Message
  | .good m => some m
  | .bad _ => none

/-- The Redis list database used for history: full key → stored list,
newest first (head of list = most recently pushed). -/
abbrev HistMap := String → List HistoryEntry

/-- Point update of the history database at one key. -/
def setKey (h : HistMap) (k : String) (v : List HistoryEntry) : HistMap :=
  fun k' => if k' = k then v else h k'

/-- The empty Redis database: every key holds the empty list. -/
def emptyHist : HistMap := fun _ => []

/-- The full Redis key for one agent's history:
`messageHistoryPrefix + agentID` (message_broker.go lines 97, 134). -/
def historyKey (agentID : String) : String :=
  messageHistoryPrefixStr ++ agentID

/-- Exogenous success/failure of the three Redis calls inside
`storeMessageHistory` (LPush, LTrim, Expire). -/
structure StoreOutcome where
  lpushOk : Bool
  ltrimOk : Bool
  expireOk : Bool
deriving DecidableEq, Repr

/-- All three Redis calls succeed. -/
def allOk : StoreOutcome := ⟨true, true, true⟩

/-- Go method `MessageBroker.storeMessageHistory` (message_broker.go lines
133–157): marshal the message, LPUSH it onto the agent's history key
(newest first), LTRIM the list to `messageHistoryMax` entries, refresh the
key TTL.  Each Redis call may fail; a failed call mutates nothing and the
function returns the wrapped error, leaving any earlier mutation in
place. -/
def storeMessageHistory (o : StoreOutcome) (hist : HistMap) (agentID : String)
    (msg : Message) : HistMap × Except String Unit :=
  let key := historyKey agentID
  if o.lpushOk = false then
    (hist, .error "failed to push message to history")
  else
    let h1 := setKey hist key (HistoryEntry.good msg :: hist key)
    if o.ltrimOk = false then
      (h1, .error "failed to trim message history")
    else
      let h2 := setKey h1 key ((h1 key).take messageHistoryMax)
      if o.expireOk = false then
        (h2, .error "failed to set message history TTL")
      else
        (h2, .ok ())

/-- The broker-visible Redis state: the history database and the log of
Publish events (channel, message) in order of publication. -/
structure BrokerState where
  history : HistMap
  published : List (String × Message)

/-- The channel determination of `SendMessage` (message_broker.go lines
64–68): `channel := directMessageChannelPrefix + req.ToAgent`, overridden
to `broadcastChannel` when `req.ToAgent == "broadcast"`. -/
def resolveChannel (toAgent : String) : String :=
  if toAgent = "broadcast" then broadcastChannel
  else directMessageChannelPrefixStr ++ toAgent

/-- The Message constructed by `SendMessage` (message_broker.go lines
46–56): fresh id, fields copied verbatim from the request, current time as
timestamp. -/
def builtMessage (fromAgentID : String) (req : SendMessageRequest)
    (msgID : String) (now : Nat) : Message :=
  { id := msgID
    fromAgent := fromAgentID
    toAgent := req.toAgent
    type := req.type
    payload := req.payload
    correlationID := req.correlationID
    timestamp := now
    ttl := req.ttl }

/-- Go method `MessageBroker.SendMessage` (message_broker.go lines 44–89):
construct the Message, resolve the channel, publish; on publish failure
return the error with no history touched.  On publish success, store
history for the sender, then — unless the recipient is `"broadcast"` — for
the recipient; history-store errors are only logged (dropped here) and the
constructed message is returned.  `publishOk`, `senderStore`,
`recipientStore` are the exogenous outcomes of the Redis calls. -/
def SendMessage (publishOk : Bool) (senderStore recipientStore : StoreOutcome)
    (st : BrokerState) (fromAgentID : String) (req : SendMessageRequest)
    (msgID : String) (now : Nat) : BrokerState × Except String Message :=
  let msg := builtMessage fromAgentID req msgID now
  let channel := resolveChannel req.toAgent
  if publishOk = false then
    (st, .error "failed to publish message")
  else
    let st1 : BrokerState :=
      { st with published := st.published ++ [(channel, msg)] }
    let h2 := (storeMessageHistory senderStore st1.history fromAgentID msg).1
    let st2 : BrokerState := { st1 with history := h2 }
    if req.toAgent ≠ "broadcast" then
      let h3 :=
        (storeMessageHistory recipientStore st2.history req.toAgent msg).1
      ({ st2 with history := h3 }, .ok msg)
    else
      (st2, .ok msg)

/-- The limit clamp of `GetMessageHistory` (message_broker.go lines 93–95):
`if limit <= 0 || limit > messageHistoryMax { limit = messageHistoryMax }`. -/
def clampLimit (limit : Int) : Int :=
  if limit ≤ 0 ∨ limit > (messageHistoryMax : Int) then (messageHistoryMax : Int)
  else limit

/-- Go method `MessageBroker.GetMessageHistory` (message_broker.go lines
92–121): clamp the limit, LRANGE the newest `limit` entries (`lrangeOk` is
the exogenous outcome of that Redis call; on failure the wrapped error is
returned), return the empty list for an empty range, otherwise walk the
range from the oldest end, unmarshalling each entry and silently skipping
entries that fail to parse. -/
def GetMessageHistory (lrangeOk : Bool) (hist : HistMap) (agentID : String)
    (limit : Int) : Except String (List Message) :=
  let limit' := clampLimit limit
  if lrangeOk = false then
    .error "failed to get message history"
  else
    let messages := (hist (historyKey agentID)).take limit'.toNat
    if messages.isEmpty then
      .ok []
    else
      .ok (messages.reverse.filterMap parseEntry)

/-- The default-type step of the HTTP Send handler
(internal/handlers/message.go lines 58–61):
`if req.Type == "" { req.Type = models.MessageTypeMessage }`. -/
def applyDefaultType (req : SendMessageRequest) : SendMessageRequest :=
  if req.type = "" then { req with type := MessageTypeMessage } else req

/-- Outcome of the HTTP Send handler, abstracting the status code and body
written to the ResponseWriter. -/
inductive HandlerResult where
  | notFound (msg : String)
  | badRequest (msg : String)
  | serverError (msg : String)
  | accepted (resp : SendMessageResponse)
deriving DecidableEq, Repr

/-- Go method `MessageHandler.Send` (internal/handlers/message.go lines
32–76): verify the sender exists (`senderExists` is the registry lookup
outcome), require a non-empty to_agent, default the message type, call
`SendMessage`, and on success respond 202 with
`Channel: "agent:message:" + req.ToAgent` — the channel string is rebuilt
here from the direct-message prefix, not taken from the broker's
resolution. -/
def handlerSend (senderExists publishOk : Bool)
    (senderStore recipientStore : StoreOutcome) (st : BrokerState)
    (fromAgentID : String) (req : SendMessageRequest) (msgID : String)
    (now : Nat) : BrokerState × HandlerResult :=
  if senderExists = false then
    (st, .notFound "sender agent not found")
  else if req.toAgent = "" then
    (st, .badRequest "to_agent is required")
  else
    let req' := applyDefaultType req
    let out := SendMessage publishOk senderStore recipientStore st fromAgentID
      req' msgID now
    match out.2 with
    | .error e => (out.1, .serverError e)
    | .ok msg =>
        (out.1, .accepted
          { messageID := msg.id
            timestamp := msg.timestamp
            channel := "agent:message:" ++ req'.toAgent })

/-- Iterated successful appends to one agent's history, in list order: the
scenario glue for the bounded-history property. -/
def appendAllOk (hist : HistMap) (agentID : String) (msgs : List Message) :
    HistMap :=
  msgs.foldl (fun h m => (storeMessageHistory allOk h agentID m).1) hist

/-- A concrete sample message used by witnesses. -/
def sampleMessage : Message :=
  { id := "m0"
    fromAgent := "a1"
    toAgent := "b1"
    type := MessageTypeMessage
    payload := "p"
    correlationID := ""
    timestamp := 7
    ttl := 0 }

/-- A second, older concrete sample message used by witnesses. -/
def sampleMessage2 : Message :=
  { id := "m1"
    fromAgent := "b1"
    toAgent := "a1"
    type := MessageTypeMessage
    payload := "q"
    correlationID := ""
    timestamp := 3
    ttl := 0 }

/-- Concrete scenario input for the bounded-history property:
`messageHistoryMax + 5` distinct messages. -/
def boundedHistoryMsgs : List Message :=
  (List.range (messageHistoryMax + 5)).map fun i =>
    { id := toString i
      fromAgent := "a1"
      toAgent := "b1"
      type := MessageTypeMessage
      payload := ""
      correlationID := ""
      timestamp := i
      ttl := 0 }

/-! Basic lemmas about the history database and the store operation. -/

theorem setKey_same (h : HistMap) (k : String) (v : List HistoryEntry) :
    setKey h k v k = v := by
  simp [setKey]

theorem setKey_other (h : HistMap) (k k' : String) (v : List HistoryEntry)
    (hk : k' ≠ k) : setKey h k v k' = h k' := by
  simp [setKey, hk]

theorem historyKey_inj {a b : String} (h : historyKey a = historyKey b) :
    a = b := by
  have hd : (messageHistoryPrefixStr ++ a).data
      = (messageHistoryPrefixStr ++ b).data := String.ext_iff.mp h
  rw [String.data_append, String.data_append] at hd
  exact String.ext_iff.mpr (List.append_cancel_left hd)

theorem store_fst_key_frame (o : StoreOutcome) (h : HistMap) (a : String)
    (m : Message) (k : String) (hk : k ≠ historyKey a) :
    (storeMessageHistory o h a m).1 k = h k := by
  rcases o with ⟨lp, lt, ex⟩
  cases lp <;> cases lt <;> cases ex <;>
    simp [storeMessageHistory, setKey, hk]

theorem store_allOk_fst (h : HistMap) (a : String) (m : Message) :
    (storeMessageHistory allOk h a m).1
      = setKey h (historyKey a)
          ((HistoryEntry.good m :: h (historyKey a)).take messageHistoryMax) := by
  funext k
  by_cases hk : k = historyKey a
  · subst hk; simp [storeMessageHistory, allOk, setKey]
  · simp [storeMessageHistory, allOk, setKey, hk]

theorem take_append_take {α : Type} (A B : List α) (n : Nat) :
    (A ++ B.take n).take n = (A ++ B).take n := by
  rw [List.take_append_eq_append_take, List.take_append_eq_append_take,
    List.take_take, Nat.min_eq_left (Nat.sub_le n A.length)]

theorem appendAllOk_key (a : String) :
    ∀ (msgs : List Message) (h : HistMap),
      (h (historyKey a)).length ≤ messageHistoryMax →
      appendAllOk h a msgs (historyKey a)
        = ((msgs.reverse.map HistoryEntry.good) ++ h (historyKey a)).take
            messageHistoryMax := by
  intro msgs
  induction msgs with
  | nil =>
      intro h hlen
      simp [appendAllOk, List.take_of_length_le hlen]
  | cons m rest ih =>
      intro h hlen
      have hstep : (storeMessageHistory allOk h a m).1 (historyKey a)
          = (HistoryEntry.good m :: h (historyKey a)).take messageHistoryMax := by
        rw [store_allOk_fst, setKey_same]
      have h1 : appendAllOk h a (m :: rest)
          = appendAllOk ((storeMessageHistory allOk h a m).1) a rest := rfl
      rw [h1, ih _ (by rw [hstep]; exact List.length_take_le _ _), hstep,
        take_append_take]
      congr 1
      simp

theorem parseEntry_good (m : Message) :
    parseEntry (HistoryEntry.good m) = some m := rfl

theorem filterMap_parse_map_good (l : List Message) :
    (l.map HistoryEntry.good).filterMap parseEntry = l := by
  rw [List.filterMap_map]
  have hcomp : (parseEntry ∘ HistoryEntry.good) = some := by
    funext m; rfl
  rw [hcomp, List.filterMap_some]

theorem getMessageHistory_allGood (hist : HistMap) (a : String) (limit : Int)
    (ms : List Message)
    (hstore : hist (historyKey a) = ms.map HistoryEntry.good) :
    GetMessageHistory true hist a limit
      = .ok ((ms.take (clampLimit limit).toNat).reverse) := by
  unfold GetMessageHistory
  rw [hstore]
  simp only [← List.map_take, ← List.map_reverse, List.isEmpty_iff,
    List.map_eq_nil_iff, filterMap_parse_map_good]
  by_cases hemp : ms.take (clampLimit limit).toNat = []
  · simp [hemp]
  · simp [hemp]

/-! Lemmas computing the two branches of SendMessage on publish success. -/

theorem sendMessage_snd_ok (sO rO : StoreOutcome) (st : BrokerState)
    (f : String) (req : SendMessageRequest) (i : String) (n : Nat) :
    (SendMessage true sO rO st f req i n).2 = .ok (builtMessage f req i n) := by
  unfold SendMessage
  by_cases hb : req.toAgent = "broadcast" <;> simp [hb]

theorem sendMessage_fst_published (sO rO : StoreOutcome) (st : BrokerState)
    (f : String) (req : SendMessageRequest) (i : String) (n : Nat) :
    (SendMessage true sO rO st f req i n).1.published
      = st.published ++ [(resolveChannel req.toAgent, builtMessage f req i n)] := by
  unfold SendMessage
  by_cases hb : req.toAgent = "broadcast" <;> simp [hb]

theorem sendMessage_fst_history_broadcast (sO rO : StoreOutcome)
    (st : BrokerState) (f : String) (req : SendMessageRequest) (i : String)
    (n : Nat) (hb : req.toAgent = "broadcast") :
    (SendMessage true sO rO st f req i n).1.history
      = (storeMessageHistory sO st.history f (builtMessage f req i n)).1 := by
  unfold SendMessage
  simp [hb]

theorem sendMessage_fst_history_direct (sO rO : StoreOutcome)
    (st : BrokerState) (f : String) (req : SendMessageRequest) (i : String)
    (n : Nat) (hb : req.toAgent ≠ "broadcast") :
    (SendMessage true sO rO st f req i n).1.history
      = (storeMessageHistory rO
          (storeMessageHistory sO st.history f (builtMessage f req i n)).1
          req.toAgent (builtMessage f req i n)).1 := by
  unfold SendMessage
  simp [hb]

/-- C1: if publishing the serialized message on the resolved channel fails,
SendMessage returns an error and no history append is attempted for either
the sender or the recipient — the whole Redis state (history database and
publish log) is returned unchanged. -/
theorem sendMessage_publish_failure_fatal (senderStore recipientStore :
    StoreOutcome) (st : BrokerState) (fromAgentID : String)
    (req : SendMessageRequest) (msgID : String) (now : Nat) :
    SendMessage false senderStore recipientStore st fromAgentID req msgID now
      = (st, .error "failed to publish message") := rfl

/-- C2: when the publish succeeds, SendMessage returns the constructed
Message and no error, for every possible outcome of the sender-side and
recipient-side history stores — a history-write failure never alters the
returned Message or the caller-visible outcome. -/
theorem sendMessage_ok_despite_history_failure (senderStore recipientStore :
    StoreOutcome) (st : BrokerState) (fromAgentID : String)
    (req : SendMessageRequest) (msgID : String) (now : Nat) :
    (SendMessage true senderStore recipientStore st fromAgentID req msgID
        now).2
      = .ok (builtMessage fromAgentID req msgID now) :=
  sendMessage_snd_ok _ _ _ _ _ _ _

/-- C4: through the handler's default-type step, the broker constructs the
Message by assigning the freshly generated id, copying from, to, kind
(defaulting to the generic "message" kind when the request leaves it
empty), payload, correlation_id and ttl, and setting the timestamp to the
current time. -/
theorem sendMessage_constructs_message (senderStore recipientStore :
    StoreOutcome) (st : BrokerState) (fromAgentID : String)
    (req : SendMessageRequest) (msgID : String) (now : Nat) :
    (SendMessage true senderStore recipientStore st fromAgentID
        (applyDefaultType req) msgID now).2
      = .ok
        { id := msgID
          fromAgent := fromAgentID
          toAgent := req.toAgent
          type := if req.type = "" then MessageTypeMessage else req.type
          payload := req.payload
          correlationID := req.correlationID
          timestamp := now
          ttl := req.ttl } := by
  rw [sendMessage_snd_ok]
  by_cases ht : req.type = "" <;>
    simp [applyDefaultType, builtMessage, ht]

theorem store_allOk_key_self (h : HistMap) (a : String) (m : Message) :
    (storeMessageHistory allOk h a m).1 (historyKey a)
      = (HistoryEntry.good m :: h (historyKey a)).take messageHistoryMax := by
  rw [store_allOk_fst, setKey_same]

theorem store_fst_agent_frame (o : StoreOutcome) (h : HistMap) (a : String)
    (m : Message) (b : String) (hb : b ≠ a) :
    (storeMessageHistory o h a m).1 (historyKey b) = h (historyKey b) :=
  store_fst_key_frame _ _ _ _ _ (fun hc => hb (historyKey_inj hc))

theorem mem_take_max_cons (x : HistoryEntry) (l : List HistoryEntry) :
    x ∈ (x :: l).take messageHistoryMax := by
  rw [show messageHistoryMax = 99 + 1 from rfl, List.take_succ_cons]
  exact List.mem_cons_self _ _

theorem applyDefaultType_toAgent (req : SendMessageRequest) :
    (applyDefaultType req).toAgent = req.toAgent := by
  by_cases h : req.type = "" <;> simp [applyDefaultType, h]

/-- C3: a send to the literal "broadcast" recipient publishes on the fixed
channel "agent:broadcast" and (with the Redis calls succeeding) appends the
message only to the sender's history — every other agent's history,
including the one keyed by "broadcast" when the sender is a normal agent,
is untouched; a send to any other recipient publishes on
"agent:message:" + recipient and appends to both the sender's and the
recipient's history, touching no other agent's history. -/
theorem sendMessage_broadcast_vs_direct_history (st : BrokerState)
    (fromAgentID : String) (req : SendMessageRequest) (msgID : String)
    (now : Nat) :
    (req.toAgent = "broadcast" →
      (SendMessage true allOk allOk st fromAgentID req msgID now).1.published
          = st.published
            ++ [(broadcastChannel, builtMessage fromAgentID req msgID now)]
      ∧ (∀ b : String, b ≠ fromAgentID →
          (SendMessage true allOk allOk st fromAgentID req msgID
              now).1.history (historyKey b)
            = st.history (historyKey b))
      ∧ (fromAgentID ≠ "broadcast" →
          (SendMessage true allOk allOk st fromAgentID req msgID
              now).1.history (historyKey "broadcast")
            = st.history (historyKey "broadcast"))
      ∧ (SendMessage true allOk allOk st fromAgentID req msgID now).1.history
            (historyKey fromAgentID)
          = (HistoryEntry.good (builtMessage fromAgentID req msgID now)
              :: st.history (historyKey fromAgentID)).take messageHistoryMax)
    ∧ (req.toAgent ≠ "broadcast" →
      (SendMessage true allOk allOk st fromAgentID req msgID now).1.published
          = st.published
            ++ [(directMessageChannelPrefixStr ++ req.toAgent,
                builtMessage fromAgentID req msgID now)]
      ∧ HistoryEntry.good (builtMessage fromAgentID req msgID now)
          ∈ (SendMessage true allOk allOk st fromAgentID req msgID
              now).1.history (historyKey fromAgentID)
      ∧ HistoryEntry.good (builtMessage fromAgentID req msgID now)
          ∈ (SendMessage true allOk allOk st fromAgentID req msgID
              now).1.history (historyKey req.toAgent)
      ∧ (∀ b : String, b ≠ fromAgentID → b ≠ req.toAgent →
          (SendMessage true allOk allOk st fromAgentID req msgID
              now).1.history (historyKey b)
            = st.history (historyKey b))) := by
  constructor
  · intro hb
    have hpub := sendMessage_fst_published allOk allOk st fromAgentID req
      msgID now
    have hhist := sendMessage_fst_history_broadcast allOk allOk st fromAgentID
      req msgID now hb
    refine ⟨?_, ?_, ?_, ?_⟩
    · rw [hpub]; simp [resolveChannel, hb]
    · intro b hbne
      rw [hhist]
      exact store_fst_agent_frame _ _ _ _ _ hbne
    · intro hf
      rw [hhist]
      exact store_fst_agent_frame _ _ _ _ _ (fun hc => hf hc.symm)
    · rw [hhist, store_allOk_key_self]
  · intro hb
    have hpub := sendMessage_fst_published allOk allOk st fromAgentID req
      msgID now
    have hhist := sendMessage_fst_history_direct allOk allOk st fromAgentID
      req msgID now hb
    refine ⟨?_, ?_, ?_, ?_⟩
    · rw [hpub]; simp [resolveChannel, hb]
    · rw [hhist]
      by_cases he : req.toAgent = fromAgentID
      · rw [he, store_allOk_key_self]
        exact mem_take_max_cons _ _
      · rw [store_fst_agent_frame _ _ _ _ _ (fun hc => he hc.symm),
          store_allOk_key_self]
        exact mem_take_max_cons _ _
    · rw [hhist, store_allOk_key_self]
      exact mem_take_max_cons _ _
    · intro b hbf hbt
      rw [hhist, store_fst_agent_frame _ _ _ _ _ hbt,
        store_fst_agent_frame _ _ _ _ _ hbf]

/-- Witness for C3 at concrete inputs: a broadcast send from "a1" on the
empty state publishes on "agent:broadcast" and leaves the history keyed by
"broadcast" empty, and a direct send to "b1" lands in "b1"'s history. -/
theorem sendMessage_broadcast_vs_direct_history_witness :
    ((SendMessage true allOk allOk ⟨emptyHist, []⟩ "a1"
        ⟨"broadcast", "message", "p", "", 0⟩ "id1" 5).1.history
        (historyKey "broadcast") = [])
    ∧ ((SendMessage true allOk allOk ⟨emptyHist, []⟩ "a1"
        ⟨"broadcast", "message", "p", "", 0⟩ "id1" 5).1.published
      = [(broadcastChannel,
          builtMessage "a1" ⟨"broadcast", "message", "p", "", 0⟩ "id1" 5)])
    ∧ HistoryEntry.good
        (builtMessage "a1" ⟨"b1", "message", "p", "", 0⟩ "id2" 6)
      ∈ (SendMessage true allOk allOk ⟨emptyHist, []⟩ "a1"
          ⟨"b1", "message", "p", "", 0⟩ "id2" 6).1.history (historyKey "b1") := by
  refine ⟨?_, ?_, ?_⟩
  · have h := (sendMessage_broadcast_vs_direct_history ⟨emptyHist, []⟩ "a1"
      ⟨"broadcast", "message", "p", "", 0⟩ "id1" 5).1 rfl
    simpa [emptyHist] using h.2.2.1 (by decide)
  · have h := (sendMessage_broadcast_vs_direct_history ⟨emptyHist, []⟩ "a1"
      ⟨"broadcast", "message", "p", "", 0⟩ "id1" 5).1 rfl
    simpa using h.1
  · exact ((sendMessage_broadcast_vs_direct_history ⟨emptyHist, []⟩ "a1"
      ⟨"b1", "message", "p", "", 0⟩ "id2" 6).2 (by decide)).2.2.1

theorem handlerSend_accepted (st : BrokerState) (f : String)
    (req : SendMessageRequest) (i : String) (n : Nat)
    (hne : req.toAgent ≠ "") :
    handlerSend true true allOk allOk st f req i n
      = ((SendMessage true allOk allOk st f (applyDefaultType req) i n).1,
        .accepted ⟨i, n, "agent:message:" ++ req.toAgent⟩) := by
  unfold handlerSend
  simp [hne, sendMessage_snd_ok, builtMessage, applyDefaultType_toAgent]

/-- C5: for a successful broadcast send the HTTP Send handler reports the
channel as "agent:message:broadcast" while the broker actually published on
"agent:broadcast" (and those two strings differ); for a non-broadcast
recipient the reported channel is exactly the channel published on. -/
theorem handlerSend_reported_channel (st : BrokerState) (fromAgentID : String)
    (req : SendMessageRequest) (msgID : String) (now : Nat) :
    (req.toAgent = "broadcast" →
      (handlerSend true true allOk allOk st fromAgentID req msgID now).2
          = .accepted ⟨msgID, now, "agent:message:broadcast"⟩
      ∧ (handlerSend true true allOk allOk st fromAgentID req msgID
          now).1.published
          = st.published
            ++ [("agent:broadcast",
                builtMessage fromAgentID (applyDefaultType req) msgID now)]
      ∧ ("agent:message:broadcast" : String) ≠ "agent:broadcast")
    ∧ (req.toAgent ≠ "broadcast" → req.toAgent ≠ "" →
      (handlerSend true true allOk allOk st fromAgentID req msgID now).2
          = .accepted
              ⟨msgID, now, directMessageChannelPrefixStr ++ req.toAgent⟩
      ∧ (handlerSend true true allOk allOk st fromAgentID req msgID
          now).1.published
          = st.published
            ++ [(directMessageChannelPrefixStr ++ req.toAgent,
                builtMessage fromAgentID (applyDefaultType req) msgID now)]) := by
  constructor
  · intro hb
    have hne : req.toAgent ≠ "" := by rw [hb]; decide
    rw [handlerSend_accepted st fromAgentID req msgID now hne]
    refine ⟨?_, ?_, by decide⟩
    · rw [hb]; rfl
    · rw [sendMessage_fst_published]
      simp [resolveChannel, applyDefaultType_toAgent, hb, broadcastChannel]
  · intro hb hne
    rw [handlerSend_accepted st fromAgentID req msgID now hne]
    refine ⟨rfl, ?_⟩
    rw [sendMessage_fst_published]
    simp [resolveChannel, applyDefaultType_toAgent, hb]

/-- Witness for C5 at concrete inputs: a broadcast send reports channel
"agent:message:broadcast" while publishing on "agent:broadcast"; a direct
send to "b1" reports the channel it published on. -/
theorem handlerSend_reported_channel_witness :
    ((handlerSend true true allOk allOk ⟨emptyHist, []⟩ "a1"
        ⟨"broadcast", "", "p", "", 0⟩ "id1" 5).2
      = .accepted ⟨"id1", 5, "agent:message:broadcast"⟩)
    ∧ ((handlerSend true true allOk allOk ⟨emptyHist, []⟩ "a1"
        ⟨"broadcast", "", "p", "", 0⟩ "id1" 5).1.published
      = [("agent:broadcast",
          builtMessage "a1" (applyDefaultType ⟨"broadcast", "", "p", "", 0⟩)
            "id1" 5)])
    ∧ ((handlerSend true true allOk allOk ⟨emptyHist, []⟩ "a1"
        ⟨"b1", "", "p", "", 0⟩ "id2" 6).2
      = .accepted ⟨"id2", 6, directMessageChannelPrefixStr ++ "b1"⟩) := by
  refine ⟨?_, ?_, ?_⟩
  · exact ((handlerSend_reported_channel ⟨emptyHist, []⟩ "a1"
      ⟨"broadcast", "", "p", "", 0⟩ "id1" 5).1 rfl).1
  · have h := ((handlerSend_reported_channel ⟨emptyHist, []⟩ "a1"
      ⟨"broadcast", "", "p", "", 0⟩ "id1" 5).1 rfl).2.1
    simpa using h
  · exact ((handlerSend_reported_channel ⟨emptyHist, []⟩ "a1"
      ⟨"b1", "", "p", "", 0⟩ "id2" 6).2 (by decide) (by decide)).1

theorem getMessageHistory_true_isOk (hist : HistMap) (a : String)
    (limit : Int) : (GetMessageHistory true hist a limit).isOk = true := by
  unfold GetMessageHistory
  by_cases hemp :
      ((hist (historyKey a)).take (clampLimit limit).toNat).isEmpty = true <;>
    simp [hemp, Except.isOk, Except.toBool]

/-- C6: after every successful history append the per-agent history holds
at most `messageHistoryMax` entries, and appending `messageHistoryMax + 5`
messages for one agent starting from an empty store and then listing with
limit ≥ `messageHistoryMax` returns exactly the `messageHistoryMax` most
recent messages, oldest-first, with the oldest 5 evicted. -/
theorem history_bounded_and_eviction :
    (∀ (h : HistMap) (a : String) (m : Message),
      ((storeMessageHistory allOk h a m).1 (historyKey a)).length
        ≤ messageHistoryMax)
    ∧ (∀ (a : String) (msgs : List Message) (limit : Int),
      msgs.length = messageHistoryMax + 5 →
      (messageHistoryMax : Int) ≤ limit →
      GetMessageHistory true (appendAllOk emptyHist a msgs) a limit
        = .ok (msgs.drop 5)) := by
  constructor
  · intro h a m
    rw [store_allOk_key_self]
    exact List.length_take_le _ _
  · intro a msgs limit hlen hlim
    have hms : appendAllOk emptyHist a msgs (historyKey a)
        = (msgs.reverse.take messageHistoryMax).map HistoryEntry.good := by
      rw [appendAllOk_key a msgs emptyHist (by simp [emptyHist])]
      simp [emptyHist, List.map_take]
    rw [getMessageHistory_allGood _ a limit _ hms]
    have hcl : clampLimit limit = (messageHistoryMax : Int) := by
      unfold clampLimit
      by_cases hc : limit ≤ 0 ∨ limit > (messageHistoryMax : Int)
      · rw [if_pos hc]
      · rw [if_neg hc]
        push_neg at hc
        omega
    rw [hcl]
    have h100 : (msgs.drop 5).reverse.length = messageHistoryMax := by
      rw [List.length_reverse, List.length_drop, hlen]
      omega
    have htake : msgs.reverse.take messageHistoryMax = (msgs.drop 5).reverse := by
      rw [show msgs.reverse = (msgs.drop 5).reverse ++ (msgs.take 5).reverse by
        rw [← List.reverse_append, List.take_append_drop]]
      exact List.take_left' h100
    rw [show ((messageHistoryMax : Int)).toNat = messageHistoryMax by simp,
      List.take_take, Nat.min_self, htake, List.reverse_reverse]

/-- Witness for C6: a single successful append stays within the bound, and
the concrete 105-message scenario returns the newest 100, oldest-first. -/
theorem history_bounded_and_eviction_witness :
    ((storeMessageHistory allOk emptyHist "a1" sampleMessage).1
        (historyKey "a1")).length ≤ messageHistoryMax
    ∧ GetMessageHistory true (appendAllOk emptyHist "a1" boundedHistoryMsgs)
        "a1" 100 = .ok (boundedHistoryMsgs.drop 5) := by
  refine ⟨history_bounded_and_eviction.1 emptyHist "a1" sampleMessage, ?_⟩
  exact history_bounded_and_eviction.2 "a1" boundedHistoryMsgs 100
    (by simp [boundedHistoryMsgs]) (by decide)

/-- C7: the read path takes the newest `limit` stored entries and reverses
their physical order, so a store in newest-first order (decreasing
timestamps) is returned in chronological order (increasing timestamps). -/
theorem getMessageHistory_chronological (hist : HistMap) (a : String)
    (limit : Int) (ms : List Message)
    (hstore : hist (historyKey a) = ms.map HistoryEntry.good)
    (hsorted : List.Sorted (· ≥ ·) (ms.map Message.timestamp)) :
    GetMessageHistory true hist a limit
      = .ok ((ms.take (clampLimit limit).toNat).reverse)
    ∧ List.Sorted (· ≤ ·)
        (((ms.take (clampLimit limit).toNat).reverse).map Message.timestamp) := by
  refine ⟨getMessageHistory_allGood hist a limit ms hstore, ?_⟩
  rw [List.map_reverse, List.map_take]
  exact List.pairwise_reverse.mpr
    (List.Pairwise.sublist (List.take_sublist _ _) hsorted)

/-- Witness for C7: a two-entry newest-first store is returned oldest
first. -/
theorem getMessageHistory_chronological_witness :
    GetMessageHistory true
        (setKey emptyHist (historyKey "a1")
          ([sampleMessage, sampleMessage2].map HistoryEntry.good)) "a1" 50
      = .ok (([sampleMessage, sampleMessage2].take (clampLimit 50).toNat).reverse)
    ∧ List.Sorted (· ≤ ·)
        ((([sampleMessage, sampleMessage2].take
            (clampLimit 50).toNat).reverse).map Message.timestamp) :=
  getMessageHistory_chronological _ "a1" 50 [sampleMessage, sampleMessage2]
    (setKey_same _ _ _) (by decide)

/-- C8: an out-of-range limit (non-positive or above the hard cap 100)
makes GetMessageHistory behave exactly as if the limit were 100, and such
a limit alone never causes an error. -/
theorem getMessageHistory_limit_clamp (lrangeOk : Bool) (hist : HistMap)
    (a : String) (limit : Int)
    (h : limit ≤ 0 ∨ (messageHistoryMax : Int) < limit) :
    GetMessageHistory lrangeOk hist a limit
      = GetMessageHistory lrangeOk hist a (messageHistoryMax : Int)
    ∧ (lrangeOk = true →
      (GetMessageHistory lrangeOk hist a limit).isOk = true) := by
  have hcl : clampLimit limit = clampLimit (messageHistoryMax : Int) := by
    unfold clampLimit
    rw [if_pos h, if_neg (by decide)]
  constructor
  · unfold GetMessageHistory
    rw [hcl]
  · intro hok
    subst hok
    exact getMessageHistory_true_isOk hist a limit

/-- Witness for C8: limit 0 on the empty store behaves as limit 100 and
returns without error. -/
theorem getMessageHistory_limit_clamp_witness :
    (GetMessageHistory true emptyHist "a1" 0
      = GetMessageHistory true emptyHist "a1" (messageHistoryMax : Int))
    ∧ (GetMessageHistory true emptyHist "a1" 0).isOk = true := by
  have h := getMessageHistory_limit_clamp true emptyHist "a1" 0
    (Or.inl (by decide))
  exact ⟨h.1, h.2 rfl⟩

/-- C9: with the Redis read succeeding, GetMessageHistory never returns an
error whatever the stored entries are; a history of only malformed entries
yields the empty list; everything returned comes from a well-formed stored
entry, and every well-formed entry within the read window is returned. -/
theorem getMessageHistory_skips_malformed :
    (∀ (hist : HistMap) (a : String) (limit : Int),
      (GetMessageHistory true hist a limit).isOk = true)
    ∧ (∀ (hist : HistMap) (a : String) (limit : Int),
      (∀ e ∈ hist (historyKey a), parseEntry e = none) →
      GetMessageHistory true hist a limit = .ok [])
    ∧ (∀ (hist : HistMap) (a : String) (limit : Int) (msgs : List Message),
      GetMessageHistory true hist a limit = .ok msgs →
      (∀ m ∈ msgs, HistoryEntry.good m ∈ hist (historyKey a))
      ∧ (∀ m : Message,
          HistoryEntry.good m
            ∈ (hist (historyKey a)).take (clampLimit limit).toNat →
          m ∈ msgs)) := by
  refine ⟨getMessageHistory_true_isOk, ?_, ?_⟩
  · intro hist a limit hall
    have hnil : ((hist (historyKey a)).take
        (clampLimit limit).toNat).reverse.filterMap parseEntry = [] := by
      rw [List.filterMap_eq_nil_iff]
      intro e he
      exact hall e (List.mem_of_mem_take (List.mem_reverse.mp he))
    unfold GetMessageHistory
    by_cases hemp :
        ((hist (historyKey a)).take (clampLimit limit).toNat).isEmpty = true
    · simp [hemp]
    · simp [hemp, hnil]
  · intro hist a limit msgs heq
    by_cases hemp :
        ((hist (historyKey a)).take (clampLimit limit).toNat).isEmpty = true
    · have h0 : GetMessageHistory true hist a limit = .ok [] := by
        unfold GetMessageHistory
        simp [hemp]
      rw [h0] at heq
      injection heq with hmsgs
      subst hmsgs
      constructor
      · intro m hm
        simp at hm
      · intro m hmem
        rw [List.isEmpty_iff.mp hemp] at hmem
        simp at hmem
    · have h0 : GetMessageHistory true hist a limit
          = .ok (((hist (historyKey a)).take
              (clampLimit limit).toNat).reverse.filterMap parseEntry) := by
        unfold GetMessageHistory
        simp [hemp]
      rw [h0] at heq
      injection heq with hmsgs
      subst hmsgs
      constructor
      · intro m hm
        obtain ⟨e, he, hpe⟩ := List.mem_filterMap.mp hm
        have hgood : e = HistoryEntry.good m := by
          cases e with
          | good m' =>
              have : m' = m := by
                simpa [parseEntry] using hpe
              rw [this]
          | bad s =>
              exact absurd hpe (by simp [parseEntry])
        rw [hgood] at he
        exact List.mem_of_mem_take (List.mem_reverse.mp he)
      · intro m hmem
        exact List.mem_filterMap.mpr
          ⟨HistoryEntry.good m, List.mem_reverse.mpr hmem, rfl⟩

/-- Witness for C9: a history of two malformed entries reads back as the
empty list without error, and a well-formed entry next to a malformed one
is returned. -/
theorem getMessageHistory_skips_malformed_witness :
    (GetMessageHistory true (setKey emptyHist (historyKey "a1")
        [HistoryEntry.bad "x", HistoryEntry.bad "y"]) "a1" 10).isOk = true
    ∧ GetMessageHistory true (setKey emptyHist (historyKey "a1")
        [HistoryEntry.bad "x", HistoryEntry.bad "y"]) "a1" 10 = .ok []
    ∧ (∀ m ∈ ([sampleMessage] : List Message),
        HistoryEntry.good m
          ∈ (setKey emptyHist (historyKey "a1")
              [HistoryEntry.good sampleMessage, HistoryEntry.bad "z"])
              (historyKey "a1")) := by
  refine ⟨getMessageHistory_skips_malformed.1 _ "a1" 10,
    getMessageHistory_skips_malformed.2.1 _ "a1" 10 (by decide), ?_⟩
  exact (getMessageHistory_skips_malformed.2.2
    (setKey emptyHist (historyKey "a1")
      [HistoryEntry.good sampleMessage, HistoryEntry.bad "z"])
    "a1" 10 [sampleMessage] (by rfl)).1

/-- C10: channel resolution is injective over non-broadcast recipients,
a non-broadcast recipient never resolves to the broadcast channel, and the
"broadcast" sentinel always resolves to the fixed broadcast channel. -/
theorem resolveChannel_injective :
    (∀ r1 r2 : String, r1 ≠ "broadcast" → r2 ≠ "broadcast" → r1 ≠ r2 →
      resolveChannel r1 ≠ resolveChannel r2)
    ∧ (∀ r : String, r ≠ "broadcast" → resolveChannel r ≠ broadcastChannel)
    ∧ resolveChannel "broadcast" = broadcastChannel := by
  refine ⟨?_, ?_, rfl⟩
  · intro r1 r2 h1 h2 hne hc
    simp only [resolveChannel, if_neg h1, if_neg h2] at hc
    have hd : (directMessageChannelPrefixStr ++ r1).data
        = (directMessageChannelPrefixStr ++ r2).data := String.ext_iff.mp hc
    rw [String.data_append, String.data_append] at hd
    exact hne (String.ext_iff.mpr (List.append_cancel_left hd))
  · intro r h1 hc
    simp only [resolveChannel, if_neg h1] at hc
    have hd : (directMessageChannelPrefixStr ++ r).data
        = broadcastChannel.data := String.ext_iff.mp hc
    rw [String.data_append] at hd
    have hp : directMessageChannelPrefixStr.data
        = ['a', 'g', 'e', 'n', 't', ':', 'm', 'e', 's', 's', 'a', 'g', 'e',
          ':'] := rfl
    have hb2 : broadcastChannel.data
        = ['a', 'g', 'e', 'n', 't', ':', 'b', 'r', 'o', 'a', 'd', 'c', 'a',
          's', 't'] := rfl
    rw [hp, hb2] at hd
    have h7 : (['a', 'g', 'e', 'n', 't', ':', 'm', 'e', 's', 's', 'a', 'g',
        'e', ':'] ++ r.data)[6]? = some 'm' := rfl
    rw [hd] at h7
    exact absurd h7 (by decide)

/-- Witness for C10: two concrete distinct agents resolve to distinct
channels, neither of which is the broadcast channel. -/
theorem resolveChannel_injective_witness :
    resolveChannel "a1" ≠ resolveChannel "b1"
    ∧ resolveChannel "a1" ≠ broadcastChannel
    ∧ resolveChannel "broadcast" = broadcastChannel :=
  ⟨resolveChannel_injective.1 "a1" "b1" (by decide) (by decide) (by decide),
    resolveChannel_injective.2.1 "a1" (by decide),
    resolveChannel_injective.2.2⟩

end AgentCommHub
